import Mathlib

/-!
Verification of the chekin-inbox-sdk communication core against its
natural-language specification.

The embedding models JavaScript strings as lists of UTF-8 bytes
(`Str := List Nat`), so the platform codec pair
`encodeURIComponent` / `decodeURIComponent` becomes pure byte-level
percent-encoding, and string lengths of all-ASCII strings coincide with
JavaScript `.length`.  The modules embedded are
`src/utils/formatChekinUrl.ts` (the length-constrained configuration
serializer) and `src/communication/ChekinCommunicator.ts` (the channel
protocol engine).
-/

namespace ChekinSDK

/-- JavaScript strings, modelled as their UTF-8 byte sequences. -/
abbrev Str := List Nat

/-- Byte sequence of an ASCII Lean string literal (used to transcribe the
string literals appearing in the TypeScript source). -/
def str (s : String) : Str := s.toList.map Char.toNat

/-- The characters `encodeURIComponent` leaves unescaped:
`A-Z a-z 0-9 - _ . ! ~ * ' ( )`. -/
def isUnreservedByte (b : Nat) : Bool :=
  (65 ≤ b && b ≤ 90) || (97 ≤ b && b ≤ 122) || (48 ≤ b && b ≤ 57) ||
  b == 45 || b == 95 || b == 46 || b == 33 || b == 126 || b == 42 ||
  b == 39 || b == 40 || b == 41

/-- Uppercase hexadecimal digit, as produced by `encodeURIComponent`. -/
def hexDigitChar (n : Nat) : Nat := if n < 10 then 48 + n else 55 + n

/-- One byte of `encodeURIComponent` output: unreserved bytes pass through,
all others become a `%XX` escape (37 is the percent sign). -/
def encodeByte (b : Nat) : Str :=
  if isUnreservedByte b then [b] else [37, hexDigitChar (b / 16), hexDigitChar (b % 16)]

/-- The platform `encodeURIComponent`, at the byte level. -/
def encodeURIComponent : Str → Str
  | [] => []
  | b :: rest => encodeByte b ++ encodeURIComponent rest

/-- Value of one hexadecimal digit character (upper or lower case). -/
def hexVal (c : Nat) : Option Nat :=
  if 48 ≤ c && c ≤ 57 then some (c - 48)
  else if 65 ≤ c && c ≤ 70 then some (c - 55)
  else if 97 ≤ c && c ≤ 102 then some (c - 87)
  else none

/-- The platform `decodeURIComponent`, at the byte level; `none` models the
`URIError` thrown on a malformed escape sequence. -/
def decodeURIComponent : Str → Option Str
  | [] => some []
  | c :: rest =>
    if c = 37 then
      match rest with
      | h :: l :: rest2 =>
        match hexVal h, hexVal l with
        | some x, some y => (decodeURIComponent rest2).map (fun r => (16 * x + y) :: r)
        | _, _ => none
      | _ => none
    else (decodeURIComponent rest).map (fun r => c :: r)

/-! ## URL and query-string model

`JsUrl` models the platform `URL` object as a query-free base plus the
ordered key/value pairs held by its `URLSearchParams`.  Serialization
(`urlToString`) applies the `application/x-www-form-urlencoded` escaping
that `URLSearchParams` uses, which is what produces the double encoding
of the style parameters observed on the wire.  Parsing (`newURL`) splits
at the first `?`; it models fragment-free URLs whose query (when present)
contains no percent-escapes, which covers every URL built by this
repository. -/

/-- Bytes `URLSearchParams` serialization leaves unescaped:
ASCII alphanumerics and `* - . _`. -/
def isFormSafeByte (b : Nat) : Bool :=
  (65 ≤ b && b ≤ 90) || (97 ≤ b && b ≤ 122) || (48 ≤ b && b ≤ 57) ||
  b == 42 || b == 45 || b == 46 || b == 95

/-- One byte of `application/x-www-form-urlencoded` output
(space becomes `+`, other unsafe bytes become `%XX`). -/
def formEncodeByte (b : Nat) : Str :=
  if isFormSafeByte b then [b]
  else if b = 32 then [43]
  else [37, hexDigitChar (b / 16), hexDigitChar (b % 16)]

/-- `URLSearchParams` serialization of a single name or value. -/
def formEncode : Str → Str
  | [] => []
  | b :: rest => formEncodeByte b ++ formEncode rest

/-- The platform `URL` object: query-free base address plus its
`URLSearchParams` entries, in order. -/
structure JsUrl where
  base : Str
  params : List (Str × Str)
deriving DecidableEq

/-- Split a byte string at the first occurrence of byte `b`. -/
def splitAtByte (b : Nat) : Str → Option (Str × Str)
  | [] => none
  | c :: rest =>
    if c = b then some ([], rest)
    else (splitAtByte b rest).map (fun p => (c :: p.1, p.2))

/-- Split a byte string on every occurrence of byte `b`. -/
def splitAllByte (b : Nat) : Str → List Str
  | [] => [[]]
  | c :: rest =>
    let r := splitAllByte b rest
    if c = b then [] :: r
    else
      match r with
      | [] => [[c]]
      | h :: t => (c :: h) :: t

/-- One `key=value` piece of a query string (a piece without `=` is a key
with empty value; an empty piece is skipped). -/
def parseQueryPiece (piece : Str) : Option (Str × Str) :=
  if piece = [] then none
  else
    match splitAtByte 61 piece with
    | some (k, v) => some (k, v)
    | none => some (piece, [])

/-- Parse a raw query string into `URLSearchParams` entries. -/
def parseQuery (q : Str) : List (Str × Str) :=
  (splitAllByte 38 q).filterMap parseQueryPiece

/-- `new URL(s)`: split off the query string at the first `?` (byte 63). -/
def newURL (s : Str) : JsUrl :=
  match splitAtByte 63 s with
  | none => ⟨s, []⟩
  | some (b, q) => ⟨b, parseQuery q⟩

/-- `URLSearchParams.set`: replace the value when the key is present,
append the pair otherwise. -/
def setParam (ps : List (Str × Str)) (k v : Str) : List (Str × Str) :=
  if ps.any (fun p => p.1 = k) then ps.map (fun p => if p.1 = k then (k, v) else p)
  else ps ++ [(k, v)]

/-- Serialize `URLSearchParams` entries (form-encoded, joined by `&`). -/
def serializeParams : List (Str × Str) → Str
  | [] => []
  | [(k, v)] => formEncode k ++ 61 :: formEncode v
  | (k, v) :: rest => formEncode k ++ 61 :: formEncode v ++ 38 :: serializeParams rest

/-- `URL.toString()`: the base, followed by `?` and the serialized query
when any parameter is present. -/
def urlToString (u : JsUrl) : Str :=
  u.base ++ (if u.params = [] then [] else 63 :: serializeParams u.params)

/-! ## Configuration serializer (`src/utils/formatChekinUrl.ts`) -/

/-- `ChekinHostSDKConfig` (types/index.ts), restricted to the fields the
serializer and the communicator read.  Callback fields and
`enableLogging` play no part in the embedded functions and are omitted. -/
structure ChekinHostSDKConfig where
  apiKey : Str
  baseUrl : Option Str := none
  version : Option Str := none
  defaultLanguage : Option Str := none
  styles : Option Str := none
  stylesLink : Option Str := none
  autoHeight : Option Bool := none
  routeSync : Option Bool := none

/-- JavaScript truthiness for an optional string (`undefined` and the
empty string are falsy). -/
def truthyStr : Option Str → Option Str
  | some s => if s = [] then none else some s
  | none => none

/-- The `VersionMapper` lookup of `getBaseUrl` succeeds (its values are
all truthy, so only key membership matters). -/
def versionMapperHas (v : Str) : Bool :=
  v == str "latest" || v == str "development" || v == str "dev"

/-- `getBaseUrl` (formatChekinUrl.ts): alias versions pass through, a
version not starting with `v` (byte 118) gets the `v` marker. -/
def getBaseUrl (version : Str) : Str :=
  let normalizedVersion :=
    if versionMapperHas version then version
    else if version.head? = some 118 then version
    else 118 :: version
  str "https://cdn.chekin.com/inbox-sdk/" ++ normalizedVersion ++ str "/index.html"

/-- `URL_LENGTH_LIMITS.SAFE_LIMIT`. -/
def SAFE_LIMIT : Nat := 2000

/-- The per-field inline-encoding threshold for style values. -/
def INLINE_THRESHOLD : Nat := 500

/-- Overflow payload: `Partial<ChekinHostSDKConfig>` restricted to the
keys the serializer can defer.  `defaultLanguage` is doubly optional
because the fallback path writes the key even when the configuration has
no language (a key present with value `undefined`). -/
structure PartialChekinConfig where
  stylesLink : Option Str := none
  styles : Option Str := none
  defaultLanguage : Option (Option Str) := none
deriving DecidableEq

/-- `Object.keys(postMessageConfig).length`. -/
def PartialChekinConfig.keyCount (p : PartialChekinConfig) : Nat :=
  (if p.stylesLink.isSome then 1 else 0) + (if p.styles.isSome then 1 else 0) +
  (if p.defaultLanguage.isSome then 1 else 0)

/-- `UrlConfigResult` (formatChekinUrl.ts). -/
structure UrlConfigResult where
  url : Str
  postMessageConfig : Option PartialChekinConfig
  isLengthLimited : Bool
deriving DecidableEq

/-- The resolved base address: `config.baseUrl || getBaseUrl(config.version || 'latest')`. -/
def baseUrlOf (c : ChekinHostSDKConfig) : Str :=
  let version := match truthyStr c.version with
    | some v => v
    | none => str "latest"
  match truthyStr c.baseUrl with
  | some b => b
  | none => getBaseUrl version

/-- `String(value)` for the boolean `autoHeight` parameter. -/
def boolStr (b : Bool) : Str := if b then str "true" else str "false"

/-- The URL after the essential parameters (`apiKey`, `lang`,
`autoHeight`) are set.  The source guards each with `value !== undefined`
(not truthiness); the `Array.isArray` branch is vacuous for these three
typed fields. -/
def essentialUrl (c : ChekinHostSDKConfig) : JsUrl :=
  let u := newURL (baseUrlOf c)
  let u := { u with params := setParam u.params (str "apiKey") c.apiKey }
  let u := match c.defaultLanguage with
    | some l => { u with params := setParam u.params (str "lang") l }
    | none => u
  match c.autoHeight with
  | some b => { u with params := setParam u.params (str "autoHeight") (boolStr b) }
  | none => u

/-- State threaded through the two style-field steps of `formatChekinUrl`. -/
structure StylesOut where
  url : JsUrl
  pmc : PartialChekinConfig
  limited : Bool

/-- The two style-deferral steps of `formatChekinUrl`: a truthy
`stylesLink`, then a truthy `styles`, is URL-encoded; an encoded length
strictly below 500 is set as a query parameter (already encoded once, so
doubly encoded after serialization), otherwise the raw value moves to the
overflow payload and the result is marked length-limited. -/
def stylesStep (c : ChekinHostSDKConfig) (u0 : JsUrl) : StylesOut :=
  let st0 : StylesOut := ⟨u0, {}, false⟩
  let st1 := match truthyStr c.stylesLink with
    | none => st0
    | some s =>
      let e := encodeURIComponent s
      if e.length < INLINE_THRESHOLD then
        { st0 with url := { st0.url with params := setParam st0.url.params (str "stylesLink") e } }
      else
        { st0 with pmc := { st0.pmc with stylesLink := some s }, limited := true }
  match truthyStr c.styles with
  | none => st1
  | some s =>
    let e := encodeURIComponent s
    if e.length < INLINE_THRESHOLD then
      { st1 with url := { st1.url with params := setParam st1.url.params (str "styles") e } }
    else
      { st1 with pmc := { st1.pmc with styles := some s }, limited := true }

/-- The fully-parameterized URL whose length the final guard checks. -/
def finalUrlOf (c : ChekinHostSDKConfig) : Str :=
  urlToString (stylesStep c (essentialUrl c)).url

/-- `formatChekinUrl` (formatChekinUrl.ts): essential parameters, style
deferral, then the safe-ceiling final guard, which rebuilds a minimal URL
holding only `apiKey` and moves `defaultLanguage` into the overflow
payload.  Outside the guard, the overflow payload is returned only when
non-empty. -/
def formatChekinUrl (c : ChekinHostSDKConfig) : UrlConfigResult :=
  let st := stylesStep c (essentialUrl c)
  let finalUrl := urlToString st.url
  if SAFE_LIMIT < finalUrl.length then
    let mu := newURL (baseUrlOf c)
    let minimalUrl := { mu with params := setParam mu.params (str "apiKey") c.apiKey }
    { url := urlToString minimalUrl,
      postMessageConfig := some { st.pmc with defaultLanguage := some c.defaultLanguage },
      isLengthLimited := true }
  else
    { url := finalUrl,
      postMessageConfig := if 0 < st.pmc.keyCount then some st.pmc else none,
      isLengthLimited := st.limited }

/-! ## Channel protocol engine (`src/communication/ChekinCommunicator.ts`)

One combined state holds the communicator's instance fields
(`eventListeners`, `currentRoute`, `routeSyncEnabled`, `hashPrefix`)
together with the pieces of the environment its handlers read and write:
the iframe's `contentWindow` identity, the host `window.location.hash`,
the messages posted to the iframe (`outbox`), the logger sink (`log`) and
a trace of listener invocations (`invoked`).  Handlers return the updated
state paired with a `Bool` that is `true` when the handler lets an
exception escape (the state then reflects the mutations made before the
throw). -/

/-- `CHEKIN_EVENTS.ROUTE_CHANGED` (constants/index.ts). -/
def ROUTE_CHANGED : Str := str "chekin:route-changed"

/-- Observable result of invoking one listener callback. -/
inductive LBehavior where
  | ok
  | throws (msg : Str)
deriving DecidableEq

/-- Message payloads that travel on the channel. -/
inductive Payload where
  | routeInfo (path hash title fullUrl : Option Str)
  | routeMsg (route : Str)
  | navigateMsg (path : Str)
  | other (tag : Nat)
deriving DecidableEq

/-- A registered listener: an identity (JavaScript function identity) and
its behaviour on each payload. -/
structure Listener where
  id : Nat
  behavior : Payload → LBehavior

/-- A `message` event as seen by `handleMessage`: the identity of the
source window, the message type and the payload. -/
structure MsgEvent where
  source : Option Nat
  mtype : Str
  payload : Payload
deriving DecidableEq

/-- Entries written to the logging sink by the embedded handlers. -/
inductive LogEntry where
  | comm (msgType : Str)
  | debugRouteToParent (route : Str)
  | debugRouteToIframe (route : Str)
  | debugSent (msgType : Str)
  | warnNoContentWindow (msgType : Str)
  | errorListener (eventType : Str)
deriving DecidableEq

/-- Communicator instance fields plus the environment they act on. -/
structure CommState where
  contentWindow : Option Nat
  eventListeners : List (Str × List Listener)
  currentRoute : Str
  routeSyncEnabled : Bool
  hashPrefix : Str
  hostHash : Str
  outbox : List (Str × Payload)
  log : List LogEntry
  invoked : List Nat

/-- `this.eventListeners.get(type) || []`. -/
def getListeners (m : List (Str × List Listener)) (t : Str) : List Listener :=
  match m.find? (fun p => p.1 = t) with
  | some p => p.2
  | none => []

/-- `send` (ChekinCommunicator.ts): post to the iframe when its content
window is reachable, otherwise log a warning and drop the message. -/
def send (s : CommState) (t : Str) (p : Payload) : CommState :=
  match s.contentWindow with
  | some _ => { s with outbox := s.outbox ++ [(t, p)], log := s.log ++ [.debugSent t] }
  | none => { s with log := s.log ++ [.warnNoContentWindow t] }

/-- `route.startsWith('#') ? route.slice(1) : route`. -/
def stripHash (r : Str) : Str := if r.head? = some 35 then r.drop 1 else r

/-- `route.startsWith('#') ? route : '#' + route` (byte 35 is `#`). -/
def normalizeRoute (r : Str) : Str := if r.head? = some 35 then r else 35 :: r

/-- The hash `updateParentHash` writes for a route:
`'#' + prefix + '=' + encodeURIComponent(cleanRoute)`. -/
def hashFor (pfx route : Str) : Str :=
  35 :: pfx ++ 61 :: encodeURIComponent (stripHash route)

/-- `updateParentHash` (ChekinCommunicator.ts): rewrite the host hash
(via `history.replaceState` when available, otherwise direct hash
assignment; both leave `location.hash` equal to the new hash). -/
def updateParentHash (s : CommState) (route : Str) : CommState :=
  { s with hostHash := hashFor s.hashPrefix route }

/-- `handleIframeRouteChange` (ChekinCommunicator.ts).  The argument is
`payload?.hash || payload?.fullUrl`, which can be `undefined` (`none`);
in that case `route.startsWith` throws a `TypeError` (flag `true`). -/
def handleIframeRouteChange (s : CommState) (route : Option Str) : CommState × Bool :=
  match route with
  | none => (s, true)
  | some r =>
    let hashRoute := normalizeRoute r
    if hashRoute = s.currentRoute then (s, false)
    else
      let s1 := updateParentHash { s with currentRoute := hashRoute } hashRoute
      ({ s1 with log := s1.log ++ [.debugRouteToParent hashRoute] }, false)

/-- `syncRouteToIframe` (ChekinCommunicator.ts). -/
def syncRouteToIframe (s : CommState) (route : Str) : CommState :=
  let hashRoute := normalizeRoute route
  let s1 := send { s with currentRoute := hashRoute } (str "route-sync") (.routeMsg hashRoute)
  { s1 with log := s1.log ++ [.debugRouteToIframe hashRoute] }

/-- A byte the regular-expression `.` matches (anything but a line
terminator; the multi-byte terminators U+2028/U+2029 do not occur as
single bytes). -/
def nonLineTerminator (b : Nat) : Bool := b ≠ 10 && b ≠ 13

/-- A byte the constructed regular expression treats as a literal in
every position: ASCII letters and digits carry no regex meaning.  The
hash-parsing model below is faithful to the source's
`new RegExp('^' + prefix + '=(.+)')` only for prefixes made of such
bytes (a metacharacter prefix such as `a|b` or `(` changes or breaks the
pattern); the repository itself always uses the literal `chekin`. -/
def isRegexLiteralByte (b : Nat) : Bool :=
  (65 ≤ b && b ≤ 90) || (97 ≤ b && b ≤ 122) || (48 ≤ b && b ≤ 57)

/-- `hash.match(new RegExp('^' + prefix + '=(.+)'))`, for a prefix whose
bytes all satisfy `isRegexLiteralByte` (so the prefix is matched
literally): the capture is the longest non-empty run of `.`-matchable
bytes after the literal `prefix=`. -/
def matchPrefixCapture (pfx hash : Str) : Option Str :=
  if (pfx ++ [61]).isPrefixOf hash then
    let cap := (hash.drop (pfx.length + 1)).takeWhile nonLineTerminator
    if cap = [] then none else some cap
  else none

/-- `handleParentHashChange` (ChekinCommunicator.ts): parse the current
host hash; on a prefix match, decode the capture and sync to the iframe
only when the decoded route differs from the current route.  The flag is
`true` when `decodeURIComponent` throws. -/
def handleParentHashChange (s : CommState) : CommState × Bool :=
  if s.routeSyncEnabled then
    match matchPrefixCapture s.hashPrefix (s.hostHash.drop 1) with
    | some cap =>
      match decodeURIComponent cap with
      | some route => if route = s.currentRoute then (s, false) else (syncRouteToIframe s route, false)
      | none => (s, true)
    | none => (s, false)
  else (s, false)

/-- `payload?.hash || payload?.fullUrl`: a truthy `hash` wins, otherwise
the `fullUrl` field as-is; `none` is JavaScript `undefined`. -/
def extractRoute : Payload → Option Str
  | .routeInfo _ h _ f =>
    (match h with
     | some s => if s = [] then f else some s
     | none => f)
  | _ => none

/-- The per-listener protected invocation loop of `handleMessage`: every
listener runs; a throwing listener is logged with the event type and the
loop continues. -/
def dispatch (t : Str) (p : Payload) (ls : List Listener) (s : CommState) : CommState :=
  ls.foldl
    (fun acc l =>
      match l.behavior p with
      | .ok => { acc with invoked := acc.invoked ++ [l.id] }
      | .throws _ =>
        { acc with invoked := acc.invoked ++ [l.id], log := acc.log ++ [.errorListener t] })
    s

/-- `handleMessage` (ChekinCommunicator.ts): drop events whose source is
not the tracked iframe's content window; log the accepted event; feed a
route-changed event (when route sync is enabled) to
`handleIframeRouteChange`, whose `TypeError` on a payload without a
usable route aborts the handler before dispatch; then run every
registered listener for the type. -/
def handleMessage (s : CommState) (e : MsgEvent) : CommState × Bool :=
  if e.source = s.contentWindow then
    let s0 := { s with log := s.log ++ [.comm e.mtype] }
    let routeStep : CommState × Bool :=
      if e.mtype = ROUTE_CHANGED then
        if s0.routeSyncEnabled then handleIframeRouteChange s0 (extractRoute e.payload)
        else (s0, false)
      else (s0, false)
    if routeStep.2 then routeStep
    else
      let s1 := routeStep.1
      (dispatch e.mtype e.payload (getListeners s1.eventListeners e.mtype) s1, false)
  else (s, false)

/-- A sequence of `message` events, as delivered by the platform; an
uncaught exception in one handler invocation does not stop later
deliveries. -/
def runEvents (s : CommState) (es : List MsgEvent) : CommState :=
  es.foldl (fun acc e => (handleMessage acc e).1) s

/-! ## Listener-registration lifecycle (constructor / `destroy`)

This plane of the communicator tracks the page-global `message` and
`hashchange` listeners.  Every occurrence of `this.handleMessage.bind(this)`
or `this.handleParentHashChange.bind(this)` in the source creates a fresh
function object; the model draws a fresh identity from a counter at each
`bind` call, exactly mirroring that the source never stores the bound
function it registered. -/

/-- The page-global listener registrations plus the fresh-function
counter for `bind`. -/
structure WindowListeners where
  msgListeners : List Nat
  hashListeners : List Nat
  nextFn : Nat
deriving DecidableEq

/-- `this.handler.bind(this)`: a fresh function identity. -/
def bindFresh (w : WindowListeners) : Nat × WindowListeners :=
  (w.nextFn, { w with nextFn := w.nextFn + 1 })

/-- `removeEventListener`: remove the listener with the given function
identity (a no-op when it was never registered). -/
def removeListener (f : Nat) (ls : List Nat) : List Nat := ls.filter (fun x => x ≠ f)

/-- Registry plane of the communicator used by the lifecycle model
(listener callbacks reduced to their identities). -/
structure CommLife where
  eventListeners : List (Str × List Nat)
  routeSyncEnabled : Bool
  hashPrefix : Str
deriving DecidableEq

/-- `enableRouteSync` (ChekinCommunicator.ts): set the flag and the
prefix, and register a freshly bound `hashchange` listener. -/
def enableRouteSyncL (c : CommLife) (w : WindowListeners) (pfxOpt : Option Str) :
    CommLife × WindowListeners :=
  let pfx := match pfxOpt with
    | some p => if p = [] then str "chekin" else p
    | none => str "chekin"
  let fw := bindFresh w
  ({ c with routeSyncEnabled := true, hashPrefix := pfx },
   { fw.2 with hashListeners := fw.2.hashListeners ++ [fw.1] })

/-- The `ChekinCommunicator` constructor: register a freshly bound
`message` listener on `window`, then enable route sync with prefix
`chekin` unless `config.routeSync` is explicitly `false`. -/
def constructL (routeSync : Option Bool) (w : WindowListeners) : CommLife × WindowListeners :=
  let fw := bindFresh w
  let w1 := { fw.2 with msgListeners := fw.2.msgListeners ++ [fw.1] }
  let c : CommLife := { eventListeners := [], routeSyncEnabled := true, hashPrefix := str "chekin" }
  if routeSync = some false then ({ c with routeSyncEnabled := false }, w1)
  else enableRouteSyncL c w1 (some (str "chekin"))

/-- `on` (ChekinCommunicator.ts): append the callback to the type's
listener list, creating the list on first use. -/
def onL (c : CommLife) (t : Str) (cb : Nat) : CommLife :=
  if c.eventListeners.any (fun p => p.1 = t) then
    { c with eventListeners :=
        c.eventListeners.map (fun p => if p.1 = t then (p.1, p.2 ++ [cb]) else p) }
  else { c with eventListeners := c.eventListeners ++ [(t, [cb])] }

/-- `destroy` (ChekinCommunicator.ts): call `removeEventListener` with a
*freshly bound* `handleMessage` (and, when route sync is enabled, a
freshly bound `handleParentHashChange`), then clear the listener
registry. -/
def destroyL (c : CommLife) (w : WindowListeners) : CommLife × WindowListeners :=
  let fw := bindFresh w
  let w1 := { fw.2 with msgListeners := removeListener fw.1 fw.2.msgListeners }
  let w2 :=
    if c.routeSyncEnabled then
      let fw2 := bindFresh w1
      { fw2.2 with hashListeners := removeListener fw2.1 fw2.2.hashListeners }
    else w1
  ({ c with eventListeners := [] }, w2)

/-! ## Route codec, as a pair of functions

`hashFor` is the encoding side (the hash `updateParentHash` writes);
`decodeRouteHash` is the matching parse-and-decode side: the hash parsing
of `handleParentHashChange` / `sendInitialRoute` followed by the
fragment-marker normalization those consumers apply
(`route.startsWith('#') ? route : '#' + route`). -/

/-- Parse a host hash written as `#<prefix>=<encoded>`, decode the
capture and normalize it to fragment-prefixed form.  Like
`matchPrefixCapture` it stands for the source's regex parse only for
prefixes of `isRegexLiteralByte` bytes; theorems about it carry that
restriction. -/
def decodeRouteHash (pfx hash : Str) : Option Str :=
  (matchPrefixCapture pfx (hash.drop 1)).bind
    (fun cap => (decodeURIComponent cap).map normalizeRoute)

/-! ## Concrete instances used in claim theorems and witnesses -/

/-- The base address derived for the default `latest` version. -/
def chekinBase : Str := str "https://cdn.chekin.com/inbox-sdk/latest/index.html"

/-- An oversized API key (2100 times the byte `a`). -/
def bigKey : Str := List.replicate 2100 97

/-- Configuration whose identity parameter alone exceeds the safe URL ceiling. -/
def cfgBigKey : ChekinHostSDKConfig := { apiKey := bigKey }

/-- Oversized API key together with a one-byte inline style value. -/
def cfgShortStyleBigKey : ChekinHostSDKConfig := { apiKey := bigKey, styles := some [98] }

/-- Oversized API key, a one-byte `stylesLink` and a 500-byte `styles`. -/
def cfgFallbackMix : ChekinHostSDKConfig :=
  { apiKey := bigKey, stylesLink := some [98], styles := some (List.replicate 500 97) }

/-- Boundary configuration: `stylesLink` of encoded length 499 and
`styles` of encoded length 500. -/
def cfgThresholds : ChekinHostSDKConfig :=
  { apiKey := [107], stylesLink := some (List.replicate 499 97),
    styles := some (List.replicate 500 97) }

/-- State in which the host hash is exactly the hash the engine last
wrote for its current route `#/foo`. -/
def echoState : CommState :=
  { contentWindow := some 0, eventListeners := [], currentRoute := str "#/foo",
    routeSyncEnabled := true, hashPrefix := str "chekin",
    hostHash := hashFor (str "chekin") (str "#/foo"),
    outbox := [], log := [], invoked := [] }

/-- A listener that always throws. -/
def throwingListener : Listener := ⟨1, fun _ => .throws (str "boom")⟩

/-- A listener that always returns normally. -/
def okListener : Listener := ⟨2, fun _ => .ok⟩

/-- State with two listeners registered for the route-changed type. -/
def crashState : CommState :=
  { contentWindow := some 0, eventListeners := [(ROUTE_CHANGED, [throwingListener, okListener])],
    currentRoute := str "#/", routeSyncEnabled := true, hashPrefix := str "chekin",
    hostHash := [], outbox := [], log := [], invoked := [] }

/-- A route-changed message whose payload carries neither a usable hash
nor a fullUrl. -/
def crashEvent : MsgEvent := ⟨some 0, ROUTE_CHANGED, .routeInfo none none none none⟩

/-- State with a throwing and a normal listener on the ready event. -/
def isolationState : CommState :=
  { contentWindow := some 0,
    eventListeners := [(str "chekin:ready", [throwingListener, okListener])],
    currentRoute := str "#/", routeSyncEnabled := true, hashPrefix := str "chekin",
    hostHash := [], outbox := [], log := [], invoked := [] }

/-- A ready message from the tracked iframe. -/
def readyEvent : MsgEvent := ⟨some 0, str "chekin:ready", .other 5⟩

/-- A ready message from a foreign window. -/
def foreignEvent : MsgEvent := ⟨some 9, str "chekin:ready", .other 5⟩

/-- State whose current route is `#/x`. -/
def routeNoopState : CommState :=
  { contentWindow := some 0, eventListeners := [], currentRoute := str "#/x",
    routeSyncEnabled := true, hashPrefix := str "chekin",
    hostHash := hashFor (str "chekin") (str "#/x"),
    outbox := [], log := [], invoked := [] }

/-- Fresh window-listener environment. -/
def lifeW0 : WindowListeners := ⟨[], [], 0⟩

/-- A communicator constructed with the default (enabled) route sync. -/
def lifeC1 : CommLife × WindowListeners := constructL none lifeW0

/-- The constructed communicator after one `on` registration and one
`destroy`. -/
def lifeAfter1 : CommLife × WindowListeners :=
  destroyL (onL lifeC1.1 (str "chekin:ready") 7) lifeC1.2

/-- The same communicator after a second `destroy`. -/
def lifeAfter2 : CommLife × WindowListeners := destroyL lifeAfter1.1 lifeAfter1.2

/-! # Theorems -/

theorem isUnreservedByte_ne_percent {b : Nat} (h : isUnreservedByte b = true) : b ≠ 37 := by
  intro he
  subst he
  simp [isUnreservedByte] at h

theorem hexVal_hexDigitChar (n : Nat) (hn : n < 16) : hexVal (hexDigitChar n) = some n := by
  interval_cases n <;> rfl

theorem decode_encodeByte (b : Nat) (hb : b < 256) (rest : Str) :
    decodeURIComponent (encodeByte b ++ rest) = (decodeURIComponent rest).map (fun r => b :: r) := by
  by_cases h : isUnreservedByte b
  · have hb37 : b ≠ 37 := isUnreservedByte_ne_percent h
    simp only [encodeByte, h, if_true, List.cons_append, List.nil_append]
    rw [decodeURIComponent.eq_def]
    simp [hb37]
  · have h1 : b / 16 < 16 := by omega
    have h2 : b % 16 < 16 := Nat.mod_lt _ (by omega)
    simp only [encodeByte, h, if_false, Bool.false_eq_true, List.cons_append, List.nil_append]
    rw [decodeURIComponent.eq_def]
    simp [hexVal_hexDigitChar _ h1, hexVal_hexDigitChar _ h2, Nat.div_add_mod b 16]

/-- `decodeURIComponent` inverts `encodeURIComponent` on byte strings. -/
theorem decode_encode (s : Str) (hs : ∀ b ∈ s, b < 256) :
    decodeURIComponent (encodeURIComponent s) = some s := by
  induction s with
  | nil => rfl
  | cons b t ih =>
    have hb : b < 256 := hs b (by simp)
    have ht : ∀ x ∈ t, x < 256 := fun x hx => hs x (by simp [hx])
    rw [encodeURIComponent, decode_encodeByte b hb, ih ht]
    rfl

/-- C1: the code violates loop freedom.  In the state where the host hash
is exactly the hash the engine last wrote for its current route `#/foo`
(namely `#chekin=%2Ffoo`), `handleParentHashChange` nevertheless sends an
outbound `route-sync` message: the decoded route `/foo` lacks the leading
fragment marker while `currentRoute` carries it, so the unchanged-route
echo guard `route !== this.currentRoute` fails to recognise the echo. -/
theorem routeEcho_sends_second_message :
    echoState.hostHash = hashFor echoState.hashPrefix echoState.currentRoute ∧
    (handleParentHashChange echoState).1.outbox =
      [(str "route-sync", Payload.routeMsg (str "#/foo"))] ∧
    (handleParentHashChange echoState).1.currentRoute = echoState.currentRoute := by
  refine ⟨rfl, ?_, ?_⟩ <;> decide

/-- C2: the code fails to remove the page-global listeners.  `destroy`
passes a freshly created `this.handleMessage.bind(this)` (and, with route
sync enabled, a fresh `this.handleParentHashChange.bind(this)`) to
`removeEventListener`, which by function identity never matches the
listeners bound and registered at construction: after `destroy` both
global listeners are still registered.  The rest of the claim holds: the
listener registry is empty after each of two `destroy` calls and neither
call can throw. -/
theorem destroy_keeps_global_listeners :
    lifeC1.2.msgListeners = [0] ∧ lifeC1.2.hashListeners = [1] ∧
    (onL lifeC1.1 (str "chekin:ready") 7).eventListeners ≠ [] ∧
    lifeAfter1.2.msgListeners = [0] ∧ lifeAfter1.2.hashListeners = [1] ∧
    lifeAfter1.1.eventListeners = [] ∧
    lifeAfter2.2.msgListeners = [0] ∧ lifeAfter2.2.hashListeners = [1] ∧
    lifeAfter2.1.eventListeners = [] := by
  decide

/-- C9: no-op on unchanged route, iframe-to-host direction.  When the
reported route, normalized to fragment-prefixed form, equals the current
route, `handleIframeRouteChange` returns the state unchanged (current
route and host hash untouched, no outbound send, nothing logged) and
throws nothing. -/
theorem unchanged_route_noop (s : CommState) (route : Str)
    (h : normalizeRoute route = s.currentRoute) :
    handleIframeRouteChange s (some route) = (s, false) := by
  simp [handleIframeRouteChange, h]

/-- Witness for C9 at the current route `#/x` reported as `/x`. -/
theorem unchanged_route_noop_witness :
    normalizeRoute (str "/x") = routeNoopState.currentRoute ∧
    handleIframeRouteChange routeNoopState (some (str "/x")) = (routeNoopState, false) :=
  ⟨by decide, unchanged_route_noop routeNoopState (str "/x") (by decide)⟩

theorem encodeByte_ne_nil (b : Nat) : encodeByte b ≠ [] := by
  unfold encodeByte
  split <;> simp

theorem encodeURIComponent_ne_nil (s : Str) (h : s ≠ []) : encodeURIComponent s ≠ [] := by
  match s with
  | [] => exact absurd rfl h
  | b :: t =>
    rw [encodeURIComponent]
    intro he
    exact encodeByte_ne_nil b (List.append_eq_nil.mp he).1

theorem hexDigitChar_nonLT (n : Nat) : nonLineTerminator (hexDigitChar n) = true := by
  unfold hexDigitChar nonLineTerminator
  split <;> simp <;> omega

theorem nonLT_encodeByte (b : Nat) : ∀ x ∈ encodeByte b, nonLineTerminator x = true := by
  intro x hx
  unfold encodeByte at hx
  by_cases h : isUnreservedByte b
  · simp only [h, if_true, List.mem_singleton] at hx
    subst hx
    have h10 : x ≠ 10 := by intro e; subst e; simp [isUnreservedByte] at h
    have h13 : x ≠ 13 := by intro e; subst e; simp [isUnreservedByte] at h
    simp [nonLineTerminator, h10, h13]
  · simp only [h, if_false, Bool.false_eq_true, List.mem_cons, List.not_mem_nil, or_false] at hx
    rcases hx with rfl | rfl | rfl
    · decide
    · exact hexDigitChar_nonLT _
    · exact hexDigitChar_nonLT _

theorem nonLT_encode (s : Str) : ∀ x ∈ encodeURIComponent s, nonLineTerminator x = true := by
  induction s with
  | nil => simp [encodeURIComponent]
  | cons b t ih =>
    intro x hx
    rw [encodeURIComponent] at hx
    rcases List.mem_append.mp hx with h | h
    · exact nonLT_encodeByte b x h
    · exact ih x h

theorem matchPrefixCapture_hashFor (pfx route : Str) (h : stripHash route ≠ []) :
    matchPrefixCapture pfx ((hashFor pfx route).drop 1) =
      some (encodeURIComponent (stripHash route)) := by
  have hdrop : (hashFor pfx route).drop 1 =
      (pfx ++ [61]) ++ encodeURIComponent (stripHash route) := by
    simp [hashFor]
  rw [hdrop]
  unfold matchPrefixCapture
  have hpre : (pfx ++ [61]).isPrefixOf ((pfx ++ [61]) ++ encodeURIComponent (stripHash route)) = true := by
    rw [List.isPrefixOf_iff_prefix]
    exact List.prefix_append _ _
  rw [hpre]
  have hlen : pfx.length + 1 = (pfx ++ [61]).length := by simp
  rw [if_pos rfl, hlen, List.drop_left]
  rw [List.takeWhile_eq_self_iff.mpr (nonLT_encode _)]
  rw [if_neg (encodeURIComponent_ne_nil _ h)]

theorem normalize_strip (route : Str) (h1 : stripHash route ≠ [])
    (h2 : (stripHash route).head? ≠ some 35) :
    normalizeRoute (stripHash route) = normalizeRoute route := by
  match route with
  | [] => simp [stripHash] at h1
  | c :: t =>
    by_cases hc : c = 35
    · subst hc
      have hs : stripHash (35 :: t) = t := by simp [stripHash]
      rw [hs] at h2 ⊢
      unfold normalizeRoute
      rw [if_neg h2, if_pos (by rfl)]
    · have hs : stripHash (c :: t) = c :: t := by simp [stripHash, hc]
      rw [hs]

/-- C4 counterexample: for the path `##a` the codec round trip returns
`#a`, not `normalize(##a) = ##a` — the encoder strips one leading
fragment marker and the decoder's normalization cannot restore a second
one. -/
theorem routeCodec_roundtrip_fails :
    decodeRouteHash (str "chekin") (hashFor (str "chekin") (str "##a")) = some (str "#a") ∧
    normalizeRoute (str "##a") = str "##a" ∧ (str "#a" : Str) ≠ str "##a" := by
  decide

/-- C4 (amended): the codec round trip holds for every prefix made of
ASCII letters and digits — so the regular expression the code builds
from it matches the prefix literally; a metacharacter prefix such as
`a|b` derails the pattern and `(` makes its construction throw — and
every path whose residue after removing a single leading `#` is
non-empty and does not itself begin with `#`: decoding the host hash
produced by encoding the path yields the fragment-normalized path.  The
repository always uses the prefix `chekin`, which satisfies the
restriction. -/
theorem routeCodec_roundtrip (pfx route : Str)
    (hp : ∀ b ∈ pfx, isRegexLiteralByte b = true)
    (hb : ∀ b ∈ route, b < 256)
    (h1 : stripHash route ≠ []) (h2 : (stripHash route).head? ≠ some 35) :
    decodeRouteHash pfx (hashFor pfx route) = some (normalizeRoute route) := by
  unfold decodeRouteHash
  rw [matchPrefixCapture_hashFor pfx route h1]
  have hbs : ∀ b ∈ stripHash route, b < 256 := by
    intro b hbmem
    apply hb
    unfold stripHash at hbmem
    split at hbmem
    · exact List.mem_of_mem_drop hbmem
    · exact hbmem
  simp [decode_encode _ hbs, normalize_strip route h1 h2]

/-- Witness for C4 at prefix `chekin` and path `#/foo`. -/
theorem routeCodec_roundtrip_witness :
    decodeRouteHash (str "chekin") (hashFor (str "chekin") (str "#/foo")) =
      some (normalizeRoute (str "#/foo")) :=
  routeCodec_roundtrip (str "chekin") (str "#/foo") (by decide) (by decide) (by decide)
    (by decide)

theorem dispatch_cons (t : Str) (p : Payload) (l : Listener) (rest : List Listener) (s : CommState) :
    dispatch t p (l :: rest) s = dispatch t p rest
      (match l.behavior p with
       | .ok => { s with invoked := s.invoked ++ [l.id] }
       | .throws _ =>
         { s with invoked := s.invoked ++ [l.id], log := s.log ++ [.errorListener t] }) := rfl

theorem dispatch_eventListeners (t : Str) (p : Payload) (ls : List Listener) :
    ∀ s, (dispatch t p ls s).eventListeners = s.eventListeners := by
  induction ls with
  | nil => intro s; rfl
  | cons l rest ih =>
    intro s
    rw [dispatch_cons, ih]
    cases l.behavior p <;> rfl

theorem dispatch_contentWindow (t : Str) (p : Payload) (ls : List Listener) :
    ∀ s, (dispatch t p ls s).contentWindow = s.contentWindow := by
  induction ls with
  | nil => intro s; rfl
  | cons l rest ih =>
    intro s
    rw [dispatch_cons, ih]
    cases l.behavior p <;> rfl

theorem dispatch_invoked (t : Str) (p : Payload) (ls : List Listener) :
    ∀ s, (dispatch t p ls s).invoked = s.invoked ++ ls.map Listener.id := by
  induction ls with
  | nil => intro s; simp [dispatch]
  | cons l rest ih =>
    intro s
    rw [dispatch_cons, ih]
    cases l.behavior p <;> simp

theorem dispatch_log_mono (t : Str) (p : Payload) (ls : List Listener) :
    ∀ s x, x ∈ s.log → x ∈ (dispatch t p ls s).log := by
  induction ls with
  | nil => intro s x hx; exact hx
  | cons l rest ih =>
    intro s x hx
    rw [dispatch_cons]
    apply ih
    cases l.behavior p <;> simp [hx]

theorem dispatch_log_throws (t : Str) (p : Payload) (ls : List Listener) :
    ∀ s, ∀ l ∈ ls, ∀ m, l.behavior p = .throws m →
      LogEntry.errorListener t ∈ (dispatch t p ls s).log := by
  induction ls with
  | nil => intro s l hl; cases hl
  | cons l0 rest ih =>
    intro s l hl m hm
    rcases List.mem_cons.mp hl with rfl | hl2
    · rw [dispatch_cons, hm]
      apply dispatch_log_mono
      simp
    · rw [dispatch_cons]
      exact ih _ l hl2 m hm

theorem hirc_preserves (s : CommState) (r : Option Str) :
    (handleIframeRouteChange s r).1.eventListeners = s.eventListeners ∧
    (handleIframeRouteChange s r).1.contentWindow = s.contentWindow ∧
    (handleIframeRouteChange s r).1.invoked = s.invoked := by
  cases r with
  | none => exact ⟨rfl, rfl, rfl⟩
  | some v =>
    by_cases h : normalizeRoute v = s.currentRoute <;>
      simp [handleIframeRouteChange, h, updateParentHash]

theorem hirc_some_flag (s : CommState) (v : Str) :
    (handleIframeRouteChange s (some v)).2 = false := by
  by_cases h : normalizeRoute v = s.currentRoute <;>
    simp [handleIframeRouteChange, h, updateParentHash]

/-- C5 (amended): listener isolation holds for every accepted inbound
message except a route-changed message (with route sync enabled) whose
payload yields no usable route, on which `handleMessage` throws before
dispatch.  For all other messages: no exception escapes `handleMessage`,
every registered listener for the type is invoked in registration order
(a throwing listener is counted as invoked), each throwing listener is
logged with the offending event type, and the listener registry is
unchanged. -/
theorem listener_isolation (s : CommState) (e : MsgEvent)
    (hsrc : e.source = s.contentWindow)
    (hroute : e.mtype = ROUTE_CHANGED → s.routeSyncEnabled = true → extractRoute e.payload ≠ none) :
    (handleMessage s e).2 = false ∧
    (handleMessage s e).1.eventListeners = s.eventListeners ∧
    (handleMessage s e).1.invoked =
      s.invoked ++ (getListeners s.eventListeners e.mtype).map Listener.id ∧
    (∀ l ∈ getListeners s.eventListeners e.mtype, ∀ m, l.behavior e.payload = .throws m →
      LogEntry.errorListener e.mtype ∈ (handleMessage s e).1.log) := by
  have hel0 : ({ s with log := s.log ++ [LogEntry.comm e.mtype] } : CommState).eventListeners
      = s.eventListeners := rfl
  by_cases hr : e.mtype = ROUTE_CHANGED
  · by_cases hsy : s.routeSyncEnabled = true
    · obtain ⟨v, hv⟩ : ∃ v, extractRoute e.payload = some v := by
        cases hx : extractRoute e.payload with
        | none => exact absurd hx (hroute hr hsy)
        | some v => exact ⟨v, rfl⟩
      have hmsg : handleMessage s e =
          (dispatch e.mtype e.payload
            (getListeners
              (handleIframeRouteChange { s with log := s.log ++ [LogEntry.comm e.mtype] } (some v)).1.eventListeners
              e.mtype)
            (handleIframeRouteChange { s with log := s.log ++ [LogEntry.comm e.mtype] } (some v)).1, false) := by
        unfold handleMessage
        rw [if_pos hsrc]
        simp only [hr, hsy, hv, if_true, if_pos]
        rw [hirc_some_flag]
        simp
      rw [hmsg]
      have hp := hirc_preserves { s with log := s.log ++ [LogEntry.comm e.mtype] } (some v)
      rw [hel0] at hp
      refine ⟨rfl, ?_, ?_, ?_⟩
      · rw [dispatch_eventListeners, hp.1]
      · rw [dispatch_invoked, hp.1, hp.2.2]
      · intro l hl m hm
        rw [hp.1]
        exact dispatch_log_throws e.mtype e.payload _ _ l hl m hm
    · have hmsg : handleMessage s e =
          (dispatch e.mtype e.payload
            (getListeners s.eventListeners e.mtype)
            { s with log := s.log ++ [LogEntry.comm e.mtype] }, false) := by
        unfold handleMessage
        rw [if_pos hsrc]
        simp [hr, hsy]
      rw [hmsg]
      refine ⟨rfl, ?_, ?_, ?_⟩
      · rw [dispatch_eventListeners]
      · rw [dispatch_invoked]
      · intro l hl m hm
        exact dispatch_log_throws e.mtype e.payload _ _ l hl m hm
  · have hmsg : handleMessage s e =
        (dispatch e.mtype e.payload
          (getListeners s.eventListeners e.mtype)
          { s with log := s.log ++ [LogEntry.comm e.mtype] }, false) := by
      unfold handleMessage
      rw [if_pos hsrc]
      simp [hr]
    rw [hmsg]
    refine ⟨rfl, ?_, ?_, ?_⟩
    · rw [dispatch_eventListeners]
    · rw [dispatch_invoked]
    · intro l hl m hm
      exact dispatch_log_throws e.mtype e.payload _ _ l hl m hm


/-- C5 counterexample: a route-changed message (route sync enabled) whose
payload carries neither a truthy `hash` nor a `fullUrl` makes
`handleIframeRouteChange` throw a `TypeError` on `route.startsWith`
before the listener loop: the exception escapes `handleMessage` and the
two listeners registered for the type are never invoked. -/
theorem malformed_route_event_skips_listeners :
    (handleMessage crashState crashEvent).2 = true ∧
    (handleMessage crashState crashEvent).1.invoked = [] ∧
    (getListeners crashState.eventListeners crashEvent.mtype).map Listener.id = [1, 2] := by
  refine ⟨?_, ?_, ?_⟩ <;> decide

/-- Witness for C5: a ready message dispatched to a throwing listener
followed by a normal one. -/
theorem listener_isolation_witness :
    (handleMessage isolationState readyEvent).2 = false ∧
    (handleMessage isolationState readyEvent).1.eventListeners = isolationState.eventListeners ∧
    (handleMessage isolationState readyEvent).1.invoked = [1, 2] ∧
    LogEntry.errorListener (str "chekin:ready") ∈ (handleMessage isolationState readyEvent).1.log := by
  have h := listener_isolation isolationState readyEvent (by decide)
    (fun hr => absurd hr (by decide))
  refine ⟨h.1, h.2.1, ?_, ?_⟩
  · rw [h.2.2.1]
    rfl
  · exact h.2.2.2 throwingListener (by simp [getListeners, isolationState, readyEvent])
      (str "boom") rfl

theorem handleMessage_foreign (s : CommState) (e : MsgEvent)
    (h : ¬ e.source = s.contentWindow) : handleMessage s e = (s, false) := by
  unfold handleMessage
  rw [if_neg h]

theorem handleMessage_contentWindow (s : CommState) (e : MsgEvent) :
    (handleMessage s e).1.contentWindow = s.contentWindow := by
  by_cases hsrc : e.source = s.contentWindow
  · by_cases hr : e.mtype = ROUTE_CHANGED
    · by_cases hsy : s.routeSyncEnabled = true
      · cases hx : extractRoute e.payload with
        | none =>
          have hmsg : handleMessage s e =
              ({ s with log := s.log ++ [LogEntry.comm e.mtype] }, true) := by
            unfold handleMessage
            rw [if_pos hsrc]
            simp [hr, hsy, hx, handleIframeRouteChange]
          rw [hmsg]
        | some v =>
          have hmsg : handleMessage s e =
              (dispatch e.mtype e.payload
                (getListeners
                  (handleIframeRouteChange { s with log := s.log ++ [LogEntry.comm e.mtype] }
                    (some v)).1.eventListeners e.mtype)
                (handleIframeRouteChange { s with log := s.log ++ [LogEntry.comm e.mtype] }
                  (some v)).1, false) := by
            unfold handleMessage
            rw [if_pos hsrc]
            simp only [hr, hsy, hx, if_true, if_pos]
            rw [hirc_some_flag]
            simp
          rw [hmsg]
          simp only [dispatch_contentWindow]
          exact (hirc_preserves { s with log := s.log ++ [LogEntry.comm e.mtype] } (some v)).2.1
      · have hmsg : handleMessage s e =
            (dispatch e.mtype e.payload (getListeners s.eventListeners e.mtype)
              { s with log := s.log ++ [LogEntry.comm e.mtype] }, false) := by
          unfold handleMessage
          rw [if_pos hsrc]
          simp [hr, hsy]
        rw [hmsg]
        simp only [dispatch_contentWindow]
    · have hmsg : handleMessage s e =
          (dispatch e.mtype e.payload (getListeners s.eventListeners e.mtype)
            { s with log := s.log ++ [LogEntry.comm e.mtype] }, false) := by
        unfold handleMessage
        rw [if_pos hsrc]
        simp [hr]
      rw [hmsg]
      simp only [dispatch_contentWindow]
  · rw [handleMessage_foreign s e hsrc]

theorem runEvents_filter (cw : Option Nat) (es : List MsgEvent) :
    ∀ s, s.contentWindow = cw →
      runEvents s es = runEvents s (es.filter (fun e => decide (e.source = cw))) := by
  induction es with
  | nil => intro s h; rfl
  | cons e rest ih =>
    intro s h
    by_cases he : e.source = cw
    · have hcw : (handleMessage s e).1.contentWindow = cw := by
        rw [handleMessage_contentWindow, h]
      simp only [runEvents, List.foldl_cons, List.filter_cons, he, decide_True]
      exact ih _ hcw
    · have hstep : handleMessage s e = (s, false) := by
        apply handleMessage_foreign
        rw [h]
        exact he
      simp only [runEvents, List.foldl_cons, List.filter_cons, he, decide_False, hstep]
      exact ih s h

/-- C6: sender-identity filtering.  A message whose source is not the
tracked iframe's content window leaves the state exactly unchanged (no
log entry, no dispatch, no route update), and two event sequences that
agree after erasing such foreign messages drive the communicator to the
same final state. -/
theorem foreign_messages_ignored :
    (∀ (s : CommState) (e : MsgEvent), e.source ≠ s.contentWindow → handleMessage s e = (s, false)) ∧
    (∀ (s : CommState) (es1 es2 : List MsgEvent),
        es1.filter (fun e => decide (e.source = s.contentWindow)) =
          es2.filter (fun e => decide (e.source = s.contentWindow)) →
        runEvents s es1 = runEvents s es2) := by
  refine ⟨fun s e h => handleMessage_foreign s e h, fun s es1 es2 hf => ?_⟩
  rw [runEvents_filter s.contentWindow es1 s rfl, runEvents_filter s.contentWindow es2 s rfl, hf]

/-- Witness for C6: a foreign ready message is a no-op and its presence
does not change a run. -/
theorem foreign_messages_ignored_witness :
    handleMessage isolationState foreignEvent = (isolationState, false) ∧
    runEvents isolationState [foreignEvent, readyEvent] = runEvents isolationState [readyEvent] := by
  refine ⟨foreign_messages_ignored.1 isolationState foreignEvent (by decide), ?_⟩
  exact foreign_messages_ignored.2 isolationState [foreignEvent, readyEvent] [readyEvent] (by decide)

theorem formEncode_append (a b : Str) : formEncode (a ++ b) = formEncode a ++ formEncode b := by
  induction a with
  | nil => rfl
  | cons c t ih => simp [formEncode, ih]

theorem formEncode_replicate97 (n : Nat) :
    formEncode (List.replicate n 97) = List.replicate n 97 := by
  induction n with
  | zero => rfl
  | succ k ih =>
    have hsafe : formEncodeByte 97 = [97] := by decide
    simp [List.replicate_succ, formEncode, hsafe, ih]

theorem splitAtByte_eq_none (b : Nat) (s : Str) (h : b ∉ s) : splitAtByte b s = none := by
  induction s with
  | nil => rfl
  | cons c t ih =>
    have hcb : ¬ c = b := by
      intro e
      subst e
      exact h (List.mem_cons_self c t)
    rw [splitAtByte, if_neg hcb, ih (fun m => h (List.mem_cons_of_mem c m))]
    rfl

theorem newURL_no_query (s : Str) (h : (63 : Nat) ∉ s) : newURL s = ⟨s, []⟩ := by
  unfold newURL
  rw [splitAtByte_eq_none 63 s h]

theorem setParam_mem (ps : List (Str × Str)) (k v : Str) : (k, v) ∈ setParam ps k v := by
  unfold setParam
  split
  · rename_i h
    rcases List.any_eq_true.mp h with ⟨p, hp, he⟩
    refine List.mem_map.mpr ⟨p, hp, ?_⟩
    rw [if_pos (of_decide_eq_true he)]
  · simp

theorem setParam_mem_ne (ps : List (Str × Str)) (k v k0 v0 : Str) (hne : k0 ≠ k)
    (hm : (k0, v0) ∈ ps) : (k0, v0) ∈ setParam ps k v := by
  unfold setParam
  split
  · refine List.mem_map.mpr ⟨(k0, v0), hm, ?_⟩
    rw [if_neg hne]
  · exact List.mem_append_left _ hm

theorem urlToString_one (b k v : Str) :
    urlToString ⟨b, [(k, v)]⟩ = b ++ 63 :: (formEncode k ++ 61 :: formEncode v) := by
  simp [urlToString, serializeParams]

theorem urlToString_two (b k1 v1 k2 v2 : Str) :
    urlToString ⟨b, [(k1, v1), (k2, v2)]⟩ =
      b ++ 63 :: (formEncode k1 ++ 61 ::
        (formEncode v1 ++ 38 :: (formEncode k2 ++ 61 :: formEncode v2))) := by
  simp [urlToString, serializeParams]

theorem essentialUrl_plain (c : ChekinHostSDKConfig) (hb : c.baseUrl = none)
    (hv : c.version = none) (hl : c.defaultLanguage = none) (ha : c.autoHeight = none) :
    essentialUrl c = ⟨chekinBase, [(str "apiKey", c.apiKey)]⟩ := by
  have hbase : getBaseUrl (str "latest") = chekinBase := by decide
  have hq : (63 : Nat) ∉ chekinBase := by decide
  unfold essentialUrl baseUrlOf
  rw [hb, hv, hl, ha]
  simp only [truthyStr, hbase, newURL_no_query _ hq]
  rfl

theorem stylesStep_skip (c : ChekinHostSDKConfig) (h1 : c.stylesLink = none)
    (h2 : c.styles = none) (u : JsUrl) : stylesStep c u = ⟨u, {}, false⟩ := by
  unfold stylesStep
  rw [h1, h2]
  rfl

theorem formatChekinUrl_fallback (c : ChekinHostSDKConfig)
    (hlen : SAFE_LIMIT < (finalUrlOf c).length) :
    formatChekinUrl c =
      { url := urlToString
          { newURL (baseUrlOf c) with
            params := setParam (newURL (baseUrlOf c)).params (str "apiKey") c.apiKey },
        postMessageConfig :=
          some { (stylesStep c (essentialUrl c)).pmc with defaultLanguage := some c.defaultLanguage },
        isLengthLimited := true } := by
  unfold finalUrlOf at hlen
  unfold formatChekinUrl
  rw [if_pos hlen]

theorem formatChekinUrl_ok (c : ChekinHostSDKConfig)
    (hlen : ¬ SAFE_LIMIT < (finalUrlOf c).length) :
    formatChekinUrl c =
      { url := finalUrlOf c,
        postMessageConfig :=
          if 0 < (stylesStep c (essentialUrl c)).pmc.keyCount
          then some (stylesStep c (essentialUrl c)).pmc else none,
        isLengthLimited := (stylesStep c (essentialUrl c)).limited } := by
  unfold finalUrlOf at hlen ⊢
  unfold formatChekinUrl
  rw [if_neg hlen]

theorem stylesStep_link_small (c : ChekinHostSDKConfig) (u : JsUrl) (s : Str)
    (hcs : truthyStr c.stylesLink = some s)
    (hsmall : (encodeURIComponent s).length < INLINE_THRESHOLD) :
    (str "stylesLink", encodeURIComponent s) ∈ (stylesStep c u).url.params ∧
    (stylesStep c u).pmc.stylesLink = none := by
  unfold stylesStep
  simp only [hcs]
  rw [if_pos hsmall]
  cases hst : truthyStr c.styles with
  | none => exact ⟨setParam_mem _ _ _, rfl⟩
  | some s2 =>
    by_cases h2 : (encodeURIComponent s2).length < INLINE_THRESHOLD
    · simp only [h2, ite_true]
      exact ⟨setParam_mem_ne _ _ _ _ _ (by decide) (setParam_mem _ _ _), trivial⟩
    · simp only [h2, ite_false]
      exact ⟨setParam_mem _ _ _, trivial⟩

theorem stylesStep_link_big (c : ChekinHostSDKConfig) (u : JsUrl) (s : Str)
    (hcs : truthyStr c.stylesLink = some s)
    (hbig : ¬ (encodeURIComponent s).length < INLINE_THRESHOLD) :
    (stylesStep c u).pmc.stylesLink = some s ∧ (stylesStep c u).limited = true := by
  unfold stylesStep
  simp only [hcs]
  rw [if_neg hbig]
  cases hst : truthyStr c.styles with
  | none => exact ⟨rfl, rfl⟩
  | some s2 =>
    by_cases h2 : (encodeURIComponent s2).length < INLINE_THRESHOLD
    · simp only [h2, ite_true]
      exact ⟨trivial, trivial⟩
    · simp only [h2, ite_false]
      exact ⟨trivial, trivial⟩

theorem stylesStep_styles_small (c : ChekinHostSDKConfig) (u : JsUrl) (s : Str)
    (hcs : truthyStr c.styles = some s)
    (hsmall : (encodeURIComponent s).length < INLINE_THRESHOLD) :
    (str "styles", encodeURIComponent s) ∈ (stylesStep c u).url.params ∧
    (stylesStep c u).pmc.styles = none := by
  unfold stylesStep
  simp only [hcs]
  rw [if_pos hsmall]
  cases hsl : truthyStr c.stylesLink with
  | none => exact ⟨setParam_mem _ _ _, rfl⟩
  | some s1 =>
    by_cases h1 : (encodeURIComponent s1).length < INLINE_THRESHOLD
    · simp only [h1, ite_true]
      exact ⟨setParam_mem _ _ _, trivial⟩
    · simp only [h1, ite_false]
      exact ⟨setParam_mem _ _ _, trivial⟩

theorem stylesStep_styles_big (c : ChekinHostSDKConfig) (u : JsUrl) (s : Str)
    (hcs : truthyStr c.styles = some s)
    (hbig : ¬ (encodeURIComponent s).length < INLINE_THRESHOLD) :
    (stylesStep c u).pmc.styles = some s ∧ (stylesStep c u).limited = true := by
  unfold stylesStep
  simp only [hcs]
  rw [if_neg hbig]
  cases hsl : truthyStr c.stylesLink with
  | none => exact ⟨rfl, rfl⟩
  | some s1 =>
    by_cases h1 : (encodeURIComponent s1).length < INLINE_THRESHOLD
    · simp only [h1, ite_true]
      exact ⟨trivial, trivial⟩
    · simp only [h1, ite_false]
      exact ⟨trivial, trivial⟩

theorem stylesStep_styles_none (c : ChekinHostSDKConfig) (u : JsUrl)
    (hcs : truthyStr c.styles = none) : (stylesStep c u).pmc.styles = none := by
  unfold stylesStep
  simp only [hcs]
  cases hsl : truthyStr c.stylesLink with
  | none => rfl
  | some s1 =>
    by_cases h1 : (encodeURIComponent s1).length < INLINE_THRESHOLD
    · simp only [h1, ite_true]
    · simp only [h1, ite_false]

theorem stylesStep_link_none (c : ChekinHostSDKConfig) (u : JsUrl)
    (hcs : truthyStr c.stylesLink = none) : (stylesStep c u).pmc.stylesLink = none := by
  unfold stylesStep
  simp only [hcs]
  cases hst : truthyStr c.styles with
  | none => rfl
  | some s2 =>
    by_cases h2 : (encodeURIComponent s2).length < INLINE_THRESHOLD
    · simp only [h2, ite_true]
    · simp only [h2, ite_false]

theorem fallback_url (c : ChekinHostSDKConfig) (hq : (63 : Nat) ∉ baseUrlOf c)
    (hlen : SAFE_LIMIT < (finalUrlOf c).length) :
    (formatChekinUrl c).url = urlToString ⟨baseUrlOf c, [(str "apiKey", c.apiKey)]⟩ := by
  rw [formatChekinUrl_fallback c hlen, newURL_no_query _ hq]
  rfl

theorem finalUrl_bigKey_len : (finalUrlOf cfgBigKey).length = 2158 := by
  have h1 : finalUrlOf cfgBigKey =
      chekinBase ++ 63 :: (formEncode (str "apiKey") ++ 61 :: formEncode bigKey) := by
    unfold finalUrlOf
    rw [essentialUrl_plain cfgBigKey rfl rfl rfl rfl, stylesStep_skip cfgBigKey rfl rfl]
    exact urlToString_one _ _ _
  have h2 : formEncode bigKey = bigKey := formEncode_replicate97 2100
  have h3 : chekinBase.length = 50 := by decide
  have h4 : (formEncode (str "apiKey")).length = 6 := by decide
  have h5 : bigKey.length = 2100 := by
    rw [bigKey]
    exact List.length_replicate 2100 97
  rw [h1, h2]
  simp only [List.length_append, List.length_cons, h3, h4, h5]

theorem encodeURIComponent_replicate97 (n : Nat) :
    encodeURIComponent (List.replicate n 97) = List.replicate n 97 := by
  induction n with
  | zero => rfl
  | succ k ih =>
    have hsafe : encodeByte 97 = [97] := by decide
    simp [List.replicate_succ, encodeURIComponent, hsafe, ih]

theorem chekinBase_len : chekinBase.length = 50 := by decide

theorem bigKey_len : bigKey.length = 2100 := by
  rw [bigKey]
  exact List.length_replicate 2100 97

/-- C3 counterexample: with a 2100-byte `apiKey`, the minimal fallback
URL itself is 2158 characters, so `formatChekinUrl` returns a URL above
the safe ceiling — the claim that the returned URL never exceeds the
ceiling is false. -/
theorem bigKey_url_exceeds_safe_limit :
    SAFE_LIMIT < (formatChekinUrl cfgBigKey).url.length ∧
    (formatChekinUrl cfgBigKey).isLengthLimited = true := by
  have hlen : SAFE_LIMIT < (finalUrlOf cfgBigKey).length := by
    rw [finalUrl_bigKey_len]
    decide
  have hq : (63 : Nat) ∉ baseUrlOf cfgBigKey := by
    show (63 : Nat) ∉ chekinBase
    decide
  refine ⟨?_, ?_⟩
  · rw [fallback_url cfgBigKey hq hlen]
    show SAFE_LIMIT < (urlToString ⟨chekinBase, [(str "apiKey", bigKey)]⟩).length
    rw [urlToString_one]
    have h2 : formEncode bigKey = bigKey := formEncode_replicate97 2100
    have h4 : (formEncode (str "apiKey")).length = 6 := by decide
    rw [h2]
    simp only [List.length_append, List.length_cons, chekinBase_len, h4, bigKey_len]
    decide
  · rw [formatChekinUrl_fallback cfgBigKey hlen]

/-- C3 (amended): when the fully-parameterised URL exceeds the safe
ceiling and the base address carries no query of its own, the final
guard returns a URL whose query holds exactly the `apiKey` parameter,
sets `isLengthLimited`, and places the `defaultLanguage` key in the
overflow payload.  The original claim's guarantee that the returned URL
never exceeds the ceiling is dropped: the minimal URL may itself exceed
it when the apiKey alone is oversized. -/
theorem formatChekinUrl_final_guard (c : ChekinHostSDKConfig)
    (hq : (63 : Nat) ∉ baseUrlOf c)
    (hlen : SAFE_LIMIT < (finalUrlOf c).length) :
    (formatChekinUrl c).url = urlToString ⟨baseUrlOf c, [(str "apiKey", c.apiKey)]⟩ ∧
    (formatChekinUrl c).isLengthLimited = true ∧
    ∃ pc, (formatChekinUrl c).postMessageConfig = some pc ∧
      pc.defaultLanguage = some c.defaultLanguage := by
  refine ⟨fallback_url c hq hlen, ?_, ?_⟩
  · rw [formatChekinUrl_fallback c hlen]
  · rw [formatChekinUrl_fallback c hlen]
    exact ⟨_, rfl, rfl⟩

/-- Witness for C3 at the oversized-apiKey configuration. -/
theorem formatChekinUrl_final_guard_witness :
    (formatChekinUrl cfgBigKey).isLengthLimited = true ∧
    ∃ pc, (formatChekinUrl cfgBigKey).postMessageConfig = some pc ∧
      pc.defaultLanguage = some cfgBigKey.defaultLanguage :=
  (formatChekinUrl_final_guard cfgBigKey
    (by show (63 : Nat) ∉ chekinBase; decide)
    (by rw [finalUrl_bigKey_len]; decide)).2

theorem stylesStep_shortStyle :
    stylesStep cfgShortStyleBigKey (essentialUrl cfgShortStyleBigKey) =
      ⟨⟨chekinBase, [(str "apiKey", bigKey), (str "styles", [98])]⟩, {}, false⟩ := by
  rw [essentialUrl_plain cfgShortStyleBigKey rfl rfl rfl rfl]
  unfold stylesStep
  simp only [show truthyStr cfgShortStyleBigKey.stylesLink = none from rfl,
             show truthyStr cfgShortStyleBigKey.styles = some [98] from rfl]
  rw [if_pos (by decide : (encodeURIComponent [98]).length < INLINE_THRESHOLD)]
  rfl

theorem finalUrl_shortStyle : SAFE_LIMIT < (finalUrlOf cfgShortStyleBigKey).length := by
  unfold finalUrlOf
  rw [stylesStep_shortStyle]
  show SAFE_LIMIT <
    (urlToString ⟨chekinBase, [(str "apiKey", bigKey), (str "styles", [98])]⟩).length
  rw [urlToString_two]
  have h2 : formEncode bigKey = bigKey := formEncode_replicate97 2100
  have h4 : (formEncode (str "apiKey")).length = 6 := by decide
  have h6 : (formEncode (str "styles")).length = 6 := by decide
  have h7 : (formEncode [98]).length = 1 := by decide
  rw [h2]
  simp only [List.length_append, List.length_cons, chekinBase_len, h4, h6, h7, bigKey_len]
  decide

/-- C7 counterexample: a one-byte `styles` value (encoded length 1, far
below the threshold) together with an oversized `apiKey` is dropped by
the final guard — the returned URL holds only the `apiKey` parameter and
the overflow payload contains no styles key — so a value below the
threshold is not always set as a query parameter of the result. -/
theorem short_style_dropped_by_final_guard :
    (encodeURIComponent [98]).length < INLINE_THRESHOLD ∧
    cfgShortStyleBigKey.styles = some [98] ∧
    (formatChekinUrl cfgShortStyleBigKey).url =
      urlToString ⟨chekinBase, [(str "apiKey", bigKey)]⟩ ∧
    (formatChekinUrl cfgShortStyleBigKey).postMessageConfig =
      some { defaultLanguage := some none } := by
  refine ⟨by decide, rfl, ?_, ?_⟩
  · rw [fallback_url cfgShortStyleBigKey (by show (63 : Nat) ∉ chekinBase; decide)
      finalUrl_shortStyle]
    rfl
  · rw [formatChekinUrl_fallback cfgShortStyleBigKey finalUrl_shortStyle,
      stylesStep_shortStyle]
    rfl

/-- C7 (amended): the strict inline threshold, per style field.  A
truthy `stylesLink`/`styles` whose encoded length is strictly below 500
is set (already encoded) as a query parameter of the styles-stage URL
and never enters the overflow payload, and when the final URL stays
within the safe ceiling that URL is returned; encoded length 500 or more
sends the raw value to the overflow payload and marks the result
length-limited.  The original claim's inline half additionally requires
that the final guard does not fire (otherwise the inlined value is
dropped, see the counterexample). -/
theorem styles_inline_threshold (c : ChekinHostSDKConfig) :
    (∀ s, c.stylesLink = some s → s ≠ [] →
      (((encodeURIComponent s).length < INLINE_THRESHOLD →
        (str "stylesLink", encodeURIComponent s) ∈ (stylesStep c (essentialUrl c)).url.params ∧
        (stylesStep c (essentialUrl c)).pmc.stylesLink = none ∧
        (¬ SAFE_LIMIT < (finalUrlOf c).length →
          (formatChekinUrl c).url = urlToString (stylesStep c (essentialUrl c)).url)) ∧
      (¬ (encodeURIComponent s).length < INLINE_THRESHOLD →
        ∃ pc, (formatChekinUrl c).postMessageConfig = some pc ∧ pc.stylesLink = some s ∧
          (formatChekinUrl c).isLengthLimited = true))) ∧
    (∀ s, c.styles = some s → s ≠ [] →
      (((encodeURIComponent s).length < INLINE_THRESHOLD →
        (str "styles", encodeURIComponent s) ∈ (stylesStep c (essentialUrl c)).url.params ∧
        (stylesStep c (essentialUrl c)).pmc.styles = none ∧
        (¬ SAFE_LIMIT < (finalUrlOf c).length →
          (formatChekinUrl c).url = urlToString (stylesStep c (essentialUrl c)).url)) ∧
      (¬ (encodeURIComponent s).length < INLINE_THRESHOLD →
        ∃ pc, (formatChekinUrl c).postMessageConfig = some pc ∧ pc.styles = some s ∧
          (formatChekinUrl c).isLengthLimited = true))) := by
  constructor
  · intro s hcs hne
    have ht : truthyStr c.stylesLink = some s := by
      rw [hcs]
      simp [truthyStr, hne]
    constructor
    · intro hsmall
      have h := stylesStep_link_small c (essentialUrl c) s ht hsmall
      refine ⟨h.1, h.2, fun hfit => ?_⟩
      rw [formatChekinUrl_ok c hfit]
      rfl
    · intro hbig
      have h := stylesStep_link_big c (essentialUrl c) s ht hbig
      by_cases hlen : SAFE_LIMIT < (finalUrlOf c).length
      · rw [formatChekinUrl_fallback c hlen]
        exact ⟨_, rfl, h.1, rfl⟩
      · rw [formatChekinUrl_ok c hlen]
        have hk : 0 < (stylesStep c (essentialUrl c)).pmc.keyCount := by
          unfold PartialChekinConfig.keyCount
          rw [h.1]
          simp
        rw [if_pos hk]
        exact ⟨_, rfl, h.1, h.2⟩
  · intro s hcs hne
    have ht : truthyStr c.styles = some s := by
      rw [hcs]
      simp [truthyStr, hne]
    constructor
    · intro hsmall
      have h := stylesStep_styles_small c (essentialUrl c) s ht hsmall
      refine ⟨h.1, h.2, fun hfit => ?_⟩
      rw [formatChekinUrl_ok c hfit]
      rfl
    · intro hbig
      have h := stylesStep_styles_big c (essentialUrl c) s ht hbig
      by_cases hlen : SAFE_LIMIT < (finalUrlOf c).length
      · rw [formatChekinUrl_fallback c hlen]
        exact ⟨_, rfl, h.1, rfl⟩
      · rw [formatChekinUrl_ok c hlen]
        have hk : 0 < (stylesStep c (essentialUrl c)).pmc.keyCount := by
          unfold PartialChekinConfig.keyCount
          rw [h.1]
          simp
        rw [if_pos hk]
        exact ⟨_, rfl, h.1, h.2⟩

/-- Witness for C7 at the boundary: encoded length 499 is inlined,
encoded length 500 is deferred. -/
theorem styles_inline_threshold_witness :
    (str "stylesLink", encodeURIComponent (List.replicate 499 97)) ∈
      (stylesStep cfgThresholds (essentialUrl cfgThresholds)).url.params ∧
    (stylesStep cfgThresholds (essentialUrl cfgThresholds)).pmc.stylesLink = none ∧
    (∃ pc, (formatChekinUrl cfgThresholds).postMessageConfig = some pc ∧
      pc.styles = some (List.replicate 500 97) ∧
      (formatChekinUrl cfgThresholds).isLengthLimited = true) := by
  have h := styles_inline_threshold cfgThresholds
  have hsmall : (encodeURIComponent (List.replicate 499 97)).length < INLINE_THRESHOLD := by
    rw [encodeURIComponent_replicate97, List.length_replicate]
    decide
  have hbig : ¬ (encodeURIComponent (List.replicate 500 97)).length < INLINE_THRESHOLD := by
    rw [encodeURIComponent_replicate97, List.length_replicate]
    decide
  have hsl := (h.1 (List.replicate 499 97) rfl (by decide)).1 hsmall
  have hst := (h.2 (List.replicate 500 97) rfl (by decide)).2 hbig
  exact ⟨hsl.1, hsl.2.1, hst⟩

/-- C8: the overflow payload is absent exactly when nothing was
deferred (no style field moved to the payload and the final guard did
not fire), and a returned payload always has at least one key — an empty
overflow object is never returned. -/
theorem overflow_absent_iff_nothing_deferred (c : ChekinHostSDKConfig) :
    ((formatChekinUrl c).postMessageConfig = none ↔
      ((stylesStep c (essentialUrl c)).pmc.keyCount = 0 ∧
        ¬ SAFE_LIMIT < (finalUrlOf c).length)) ∧
    (∀ pc, (formatChekinUrl c).postMessageConfig = some pc → 0 < pc.keyCount) := by
  by_cases hlen : SAFE_LIMIT < (finalUrlOf c).length
  · rw [formatChekinUrl_fallback c hlen]
    refine ⟨⟨fun h => absurd h (by simp), fun h => absurd hlen h.2⟩, fun pc hpc => ?_⟩
    have hpc2 : pc =
        { (stylesStep c (essentialUrl c)).pmc with defaultLanguage := some c.defaultLanguage } := by
      injection hpc with h
      exact h.symm
    rw [hpc2]
    unfold PartialChekinConfig.keyCount
    simp
  · rw [formatChekinUrl_ok c hlen]
    by_cases hk : 0 < (stylesStep c (essentialUrl c)).pmc.keyCount
    · rw [if_pos hk]
      refine ⟨⟨fun h => absurd h (by simp), fun h => by omega⟩, fun pc hpc => ?_⟩
      injection hpc with h
      rw [← h]
      exact hk
    · rw [if_neg hk]
      exact ⟨⟨fun _ => ⟨by omega, hlen⟩, fun _ => rfl⟩, fun pc hpc => absurd hpc (by simp)⟩

/-- Witness for C8 at a minimal configuration: nothing is deferred and
the payload is absent. -/
theorem overflow_absent_iff_nothing_deferred_witness :
    (formatChekinUrl { apiKey := str "k" }).postMessageConfig = none :=
  (overflow_absent_iff_nothing_deferred { apiKey := str "k" }).1.mpr ⟨by decide, by decide⟩

/-- C10: fate of style values under the final guard.  When the guard
fires, a style value whose encoded length is below the threshold (and
was therefore inlined or skipped in the styles step) is dropped
entirely — the returned URL holds only the `apiKey` parameter and the
overflow payload has no entry for it — while a value at or above the
threshold survives in the overflow payload. -/
theorem final_guard_drops_inlined_styles (c : ChekinHostSDKConfig)
    (hq : (63 : Nat) ∉ baseUrlOf c)
    (hlen : SAFE_LIMIT < (finalUrlOf c).length) :
    (formatChekinUrl c).url = urlToString ⟨baseUrlOf c, [(str "apiKey", c.apiKey)]⟩ ∧
    (∀ s, c.styles = some s → (encodeURIComponent s).length < INLINE_THRESHOLD →
      ∀ pc, (formatChekinUrl c).postMessageConfig = some pc → pc.styles = none) ∧
    (∀ s, c.styles = some s → s ≠ [] → ¬ (encodeURIComponent s).length < INLINE_THRESHOLD →
      ∃ pc, (formatChekinUrl c).postMessageConfig = some pc ∧ pc.styles = some s) ∧
    (∀ s, c.stylesLink = some s → (encodeURIComponent s).length < INLINE_THRESHOLD →
      ∀ pc, (formatChekinUrl c).postMessageConfig = some pc → pc.stylesLink = none) ∧
    (∀ s, c.stylesLink = some s → s ≠ [] → ¬ (encodeURIComponent s).length < INLINE_THRESHOLD →
      ∃ pc, (formatChekinUrl c).postMessageConfig = some pc ∧ pc.stylesLink = some s) := by
  refine ⟨fallback_url c hq hlen, ?_, ?_, ?_, ?_⟩
  · intro s hcs hsmall pc hpc
    rw [formatChekinUrl_fallback c hlen] at hpc
    injection hpc with h
    rw [← h]
    show (stylesStep c (essentialUrl c)).pmc.styles = none
    by_cases hne : s = []
    · exact stylesStep_styles_none c _ (by rw [hcs, hne]; rfl)
    · exact (stylesStep_styles_small c _ s (by rw [hcs]; simp [truthyStr, hne]) hsmall).2
  · intro s hcs hne hbig
    rw [formatChekinUrl_fallback c hlen]
    refine ⟨_, rfl, ?_⟩
    show (stylesStep c (essentialUrl c)).pmc.styles = some s
    exact (stylesStep_styles_big c _ s (by rw [hcs]; simp [truthyStr, hne]) hbig).1
  · intro s hcs hsmall pc hpc
    rw [formatChekinUrl_fallback c hlen] at hpc
    injection hpc with h
    rw [← h]
    show (stylesStep c (essentialUrl c)).pmc.stylesLink = none
    by_cases hne : s = []
    · exact stylesStep_link_none c _ (by rw [hcs, hne]; rfl)
    · exact (stylesStep_link_small c _ s (by rw [hcs]; simp [truthyStr, hne]) hsmall).2
  · intro s hcs hne hbig
    rw [formatChekinUrl_fallback c hlen]
    refine ⟨_, rfl, ?_⟩
    show (stylesStep c (essentialUrl c)).pmc.stylesLink = some s
    exact (stylesStep_link_big c _ s (by rw [hcs]; simp [truthyStr, hne]) hbig).1

theorem encoded500_not_small :
    ¬ (encodeURIComponent (List.replicate 500 97)).length < INLINE_THRESHOLD := by
  rw [encodeURIComponent_replicate97, List.length_replicate]
  decide

theorem stylesStep_fallbackMix :
    stylesStep cfgFallbackMix (essentialUrl cfgFallbackMix) =
      ⟨⟨chekinBase, [(str "apiKey", bigKey), (str "stylesLink", [98])]⟩,
       { styles := some (List.replicate 500 97) }, true⟩ := by
  rw [essentialUrl_plain cfgFallbackMix rfl rfl rfl rfl]
  unfold stylesStep
  simp only [show truthyStr cfgFallbackMix.stylesLink = some [98] from rfl,
             show truthyStr cfgFallbackMix.styles = some (List.replicate 500 97) from rfl]
  rw [if_pos (by decide : (encodeURIComponent [98]).length < INLINE_THRESHOLD)]
  rw [if_neg encoded500_not_small]
  rfl

theorem finalUrl_fallbackMix : SAFE_LIMIT < (finalUrlOf cfgFallbackMix).length := by
  unfold finalUrlOf
  rw [stylesStep_fallbackMix]
  show SAFE_LIMIT <
    (urlToString ⟨chekinBase, [(str "apiKey", bigKey), (str "stylesLink", [98])]⟩).length
  rw [urlToString_two]
  have h2 : formEncode bigKey = bigKey := formEncode_replicate97 2100
  have h4 : (formEncode (str "apiKey")).length = 6 := by decide
  have h6 : (formEncode (str "stylesLink")).length = 10 := by decide
  have h7 : (formEncode [98]).length = 1 := by decide
  rw [h2]
  simp only [List.length_append, List.length_cons, chekinBase_len, h4, h6, h7, bigKey_len]
  decide

/-- Witness for C10: a one-byte `stylesLink` is lost while the 500-byte
`styles` is delivered through the overflow payload. -/
theorem final_guard_drops_inlined_styles_witness :
    (formatChekinUrl cfgFallbackMix).url =
      urlToString ⟨baseUrlOf cfgFallbackMix, [(str "apiKey", cfgFallbackMix.apiKey)]⟩ ∧
    (∀ pc, (formatChekinUrl cfgFallbackMix).postMessageConfig = some pc →
      pc.stylesLink = none) ∧
    (∃ pc, (formatChekinUrl cfgFallbackMix).postMessageConfig = some pc ∧
      pc.styles = some (List.replicate 500 97)) := by
  have h := final_guard_drops_inlined_styles cfgFallbackMix
    (by show (63 : Nat) ∉ chekinBase; decide) finalUrl_fallbackMix
  exact ⟨h.1, fun pc hpc => h.2.2.2.1 [98] rfl (by decide) pc hpc,
    h.2.2.1 (List.replicate 500 97) rfl (by decide) encoded500_not_small⟩

end ChekinSDK
